import Mathlib

/-!
Verification of the live price tracker (`code/live_price_tracker.py`).

The sampling-and-display loop `live_tracker` is embedded shallowly:

* Wall-clock time is idealized as a rational number of seconds since session
  start; `time.sleep(refresh_sec)` advances the clock by exactly
  `refresh_sec`, and both `datetime.now()` calls inside one tick read the
  same instant (the fetch is modelled as instantaneous).
* The environment of one loop iteration is a `TickEvent`: the price fetch
  (line 57) either raises (`fetchFail`), or returns a price and every later
  statement of the tick body succeeds (`ok p`), or returns a price and the
  CSV append (lines 64-66) raises (`writeFail p`).  The whole tick body
  (lines 57-82) sits inside `try ... except Exception` (lines 56-85), so any
  of these exceptions is caught, printed, and the loop proceeds to
  `time.sleep` (line 87).
* The filesystem is the single CSV file the session may create:
  `Option (List CsvRow)`, `none` meaning the file does not exist.
* The matplotlib axis state is reduced to the y-limits the code sets at
  line 76, plus an ordered trace of the completed CSV writes and chart
  redraws, used to state ordering properties.
-/

namespace LiveTracker

/-- One price sample `(now, price)` as appended to `prices` (line 59). -/
structure Sample where
  timestamp : ℚ
  price : ℚ
deriving DecidableEq

/-- One row of the CSV file: the header `['timestamp', 'price']` written at
line 38, or a data row `[now.isoformat(), price]` written at line 66. -/
inductive CsvRow where
  | header
  | data (timestamp : ℚ) (price : ℚ)
deriving DecidableEq

/-- Observable side effects of one tick, in program order: a completed CSV
row append (lines 64-66) and a completed chart redraw (lines 69-82),
tagged with the index of the tick that produced them. -/
inductive TraceEvent where
  | csvWrite (tick : ℕ)
  | plotDraw (tick : ℕ)
deriving DecidableEq

/-- Environment of one loop iteration.  `fetchFail`: the price fetch at
line 57 raises.  `ok p`: the fetch returns `p` and the rest of the tick
body succeeds.  `writeFail p`: the fetch returns `p` but the CSV append at
lines 64-66 raises (only observable when `save_csv` is set; with
`save_csv` false no write is attempted and the tick behaves like `ok p`). -/
inductive TickEvent where
  | fetchFail
  | ok (price : ℚ)
  | writeFail (price : ℚ)
deriving DecidableEq

/-- Session configuration: the parameters of `live_tracker` (lines 24-25). -/
structure Config where
  symbol : String
  duration_min : ℚ
  refresh_sec : ℚ
  save_csv : Bool
  show_plot : Bool

/-- State of one tracking session.  `now` is seconds since session start,
`ticks` counts attempted loop iterations, `errors` counts messages printed
by the `except` branch (line 85), `prices` is the in-memory series
(line 30), `file` is the CSV file (`none` = not created), `ylim` is the
last y-range set at line 76, `trace` is the ordered effect log. -/
structure TrackState where
  now : ℚ
  ticks : ℕ
  errors : ℕ
  prices : List Sample
  file : Option (List CsvRow)
  ylim : Option (ℚ × ℚ)
  trace : List TraceEvent
deriving DecidableEq

/-- The value `end_time` relative to session start (line 29): `duration_min`
minutes, in seconds. -/
def deadline (cfg : Config) : ℚ := 60 * cfg.duration_min

/-- Name of the CSV file (line 32). -/
def csvFilename (cfg : Config) : String := cfg.symbol ++ "_realtime_price.csv"

/-- State after the initialization phase (lines 29-52): clock at 0, empty
series; if `save_csv`, the file has been created/truncated and holds
exactly the header row (lines 35-38); no y-limits set yet. -/
def initState (cfg : Config) : TrackState :=
  { now := 0
    ticks := 0
    errors := 0
    prices := []
    file := if cfg.save_csv then some [CsvRow.header] else none
    ylim := none
    trace := [] }

/-- Python's `min(vals)` over a nonempty list (line 74); 0 on `[]` (unreachable:
the plot update runs only after at least one sample was appended). -/
def vminOf : List ℚ → ℚ
  | [] => 0
  | x :: xs => xs.foldl min x

/-- Python's `max(vals)` over a nonempty list (line 74); 0 on `[]` (unreachable). -/
def vmaxOf : List ℚ → ℚ
  | [] => 0
  | x :: xs => xs.foldl max x

/-- The margin `max(0.005 * vmax, 0.01)` of line 75. -/
def plotMargin (vmax : ℚ) : ℚ := max (5 / 1000 * vmax) (1 / 100)

/-- Appending one data row in mode `'a'` (lines 64-66): creates the file if
it does not exist, otherwise appends at the end. -/
def csvAppend (file : Option (List CsvRow)) (t p : ℚ) : Option (List CsvRow) :=
  match file with
  | none => some [CsvRow.data t p]
  | some rows => some (rows ++ [CsvRow.data t p])

/-- A fully successful tick (lines 57-82): the sample is appended to the
in-memory series, then (if `save_csv`) written to the CSV, then (if
`show_plot`) the chart is redrawn with the y-range of line 76; finally
`time.sleep(refresh_sec)` (line 87) advances the clock. -/
def okTick (cfg : Config) (s : TrackState) (p : ℚ) : TrackState :=
  { now := s.now + cfg.refresh_sec
    ticks := s.ticks + 1
    errors := s.errors
    prices := s.prices ++ [Sample.mk s.now p]
    file := if cfg.save_csv then csvAppend s.file s.now p else s.file
    ylim :=
      if cfg.show_plot then
        some (vminOf ((s.prices ++ [Sample.mk s.now p]).map Sample.price) -
                plotMargin (vmaxOf ((s.prices ++ [Sample.mk s.now p]).map Sample.price)),
              vmaxOf ((s.prices ++ [Sample.mk s.now p]).map Sample.price) +
                plotMargin (vmaxOf ((s.prices ++ [Sample.mk s.now p]).map Sample.price)))
      else s.ylim
    trace := s.trace ++ (if cfg.save_csv then [TraceEvent.csvWrite s.ticks] else []) ++
             (if cfg.show_plot then [TraceEvent.plotDraw s.ticks] else []) }

/-- A tick whose price fetch raises (line 57): the exception is caught at
line 84 and printed (line 85); nothing is recorded; the clock advances. -/
def failTick (cfg : Config) (s : TrackState) : TrackState :=
  { s with
    errors := s.errors + 1
    now := s.now + cfg.refresh_sec
    ticks := s.ticks + 1 }

/-- A tick whose fetch succeeds but whose CSV append (lines 64-66) raises:
the sample was already appended to memory at line 59; the exception is
caught at line 84 and printed, so the chart update (lines 69-82) is
skipped; the clock advances. -/
def writeFailTick (cfg : Config) (s : TrackState) (p : ℚ) : TrackState :=
  { s with
    prices := s.prices ++ [Sample.mk s.now p]
    errors := s.errors + 1
    now := s.now + cfg.refresh_sec
    ticks := s.ticks + 1 }

/-- One iteration of the `while` body (lines 55-87), driven by the
environment `env` giving the outcome of tick number `s.ticks`. -/
def stepTick (cfg : Config) (env : ℕ → TickEvent) (s : TrackState) : TrackState :=
  match env s.ticks with
  | TickEvent.fetchFail => failTick cfg s
  | TickEvent.ok p => okTick cfg s p
  | TickEvent.writeFail p =>
      if cfg.save_csv then writeFailTick cfg s p else okTick cfg s p

/-- State after at most `n` evaluations of the loop guard
`datetime.now() < end_time` (line 55): each guard that passes runs one
tick, the first guard that fails stops the loop for good. -/
def runTicks (cfg : Config) (env : ℕ → TickEvent) : ℕ → TrackState
  | 0 => initState cfg
  | n + 1 =>
      if (runTicks cfg env n).now < deadline cfg then
        stepTick cfg env (runTicks cfg env n)
      else
        runTicks cfg env n

/-- Number of guard evaluations that can possibly pass:
`⌈deadline / refresh⌉` (the guard at clock `k * refresh` passes iff
`k * refresh < deadline`). -/
def ticksBound (cfg : Config) : ℕ := (⌈deadline cfg / cfg.refresh_sec⌉).toNat

/-- Guard-evaluation budget sufficient for the loop to have terminated;
`track_loop_limit` below proves the state is stable from `ticksBound` on. -/
def fuel (cfg : Config) : ℕ := ticksBound cfg + 1

/-- Final state of the session: the `while` loop (lines 55-87) run to
completion. -/
def track (cfg : Config) (env : ℕ → TickEvent) : TrackState :=
  runTicks cfg env (fuel cfg)

/-- The `(timestamp, price)` pairs of the data rows of a file, in order;
`[]` when the file does not exist. -/
def rowData : CsvRow → Option (ℚ × ℚ)
  | CsvRow.header => none
  | CsvRow.data t p => some (t, p)

/-- Data rows of an optional file. -/
def fileData : Option (List CsvRow) → List (ℚ × ℚ)
  | none => []
  | some rows => rows.filterMap rowData

/-- The persisted series: `(timestamp, price)` of every data row on disk. -/
def diskData (s : TrackState) : List (ℚ × ℚ) := fileData s.file

/-- The in-memory series as `(timestamp, price)` pairs. -/
def memData (s : TrackState) : List (ℚ × ℚ) :=
  s.prices.map fun x => (x.timestamp, x.price)

/-- Timestamps of the persisted data rows, in file order. -/
def diskTimestamps (s : TrackState) : List ℚ := (diskData s).map Prod.fst

/-- Claim C1's invariant, as stated by the spec: every sample appended to
the in-memory series has also been written to the CSV file. -/
def allFlushed (s : TrackState) : Prop := ∀ x ∈ memData s, x ∈ diskData s

/-- Claim C6's invariant, as stated by the spec: the chart's y-range
reflects the full current in-memory series, expanded by
`margin = max(0.005 * max, 0.01)`. -/
def ylimMatchesSeries (s : TrackState) : Prop :=
  s.ylim = some (vminOf (s.prices.map Sample.price) -
                   plotMargin (vmaxOf (s.prices.map Sample.price)),
                 vmaxOf (s.prices.map Sample.price) +
                   plotMargin (vmaxOf (s.prices.map Sample.price)))

/-- Does a row carry data (as opposed to being the header)? -/
def isDataRow : CsvRow → Bool
  | CsvRow.header => false
  | CsvRow.data _ _ => true

/-- Did this tick's fetch succeed and its CSV append complete? -/
def isOkEvent : TickEvent → Bool
  | TickEvent.ok _ => true
  | _ => false

/-- Did this tick's fetch succeed (whatever happened afterwards)? -/
def fetchOk : TickEvent → Bool
  | TickEvent.fetchFail => false
  | _ => true

/-- Number of ticks among `0, ..., n-1` that completed fully. -/
def okCount (env : ℕ → TickEvent) (n : ℕ) : ℕ :=
  ((List.range n).filter fun k => isOkEvent (env k)).length

/-- Number of ticks among `0, ..., n-1` whose price fetch succeeded. -/
def succFetchCount (env : ℕ → TickEvent) (n : ℕ) : ℕ :=
  ((List.range n).filter fun k => fetchOk (env k)).length

/-- Tick index carried by a trace event. -/
def eventTick : TraceEvent → ℕ
  | TraceEvent.csvWrite k => k
  | TraceEvent.plotDraw k => k

/-- Python's built-in `bool` applied to a string: false exactly on the
empty string.  This is what `argparse` applies to the textual value of
`--save_csv` / `--show_plot`, because the parser is declared with
`type=bool` (lines 143-144). -/
def pyBool (s : String) : Bool := s != ""

/-- Parsed value of `--save_csv` / `--show_plot`: `default=True` when the
flag is absent (lines 143-144), otherwise `bool(value)`. -/
def parseBoolFlag : Option String → Bool
  | none => true
  | some v => pyBool v

/-! ### Concrete sessions used as test inputs -/

/-- A 1-second session (1 tick at refresh 1s), persisting, no plot. -/
def cfg1 : Config := ⟨"AAPL", 1 / 60, 1, true, false⟩

/-- A 2-second session (2 ticks at refresh 1s), persisting and plotting. -/
def cfg2 : Config := ⟨"AAPL", 1 / 30, 1, true, true⟩

/-- A session with duration 0. -/
def cfg0 : Config := ⟨"AAPL", 0, 1, true, true⟩

/-- A 2-second session with persistence disabled. -/
def cfgNoSave : Config := ⟨"AAPL", 1 / 30, 1, false, true⟩

/-- Environment where every fetch succeeds with price 10 and every CSV
append completes. -/
def envOk10 : ℕ → TickEvent := fun _ => TickEvent.ok 10

/-- Environment where every fetch raises. -/
def envFail : ℕ → TickEvent := fun _ => TickEvent.fetchFail

/-- Environment where every fetch returns 5 but every CSV append raises. -/
def env1 : ℕ → TickEvent := fun _ => TickEvent.writeFail 5

/-- Environment: tick 0 fetches 7 but its CSV append raises; later ticks
fetch 8 and complete. -/
def env2 : ℕ → TickEvent := fun k => if k = 0 then TickEvent.writeFail 7 else TickEvent.ok 8

/-- Environment: tick 0 fetches 10 and completes; later ticks fetch 20
but their CSV append raises. -/
def env6 : ℕ → TickEvent := fun k => if k = 0 then TickEvent.ok 10 else TickEvent.writeFail 20

/-! ### Basic facts about one tick -/

theorem stepTick_fetchFail (cfg : Config) (env : ℕ → TickEvent) (s : TrackState)
    (h : env s.ticks = TickEvent.fetchFail) : stepTick cfg env s = failTick cfg s := by
  unfold stepTick
  rw [h]

theorem stepTick_ok (cfg : Config) (env : ℕ → TickEvent) (s : TrackState) (p : ℚ)
    (h : env s.ticks = TickEvent.ok p) : stepTick cfg env s = okTick cfg s p := by
  unfold stepTick
  rw [h]

theorem stepTick_writeFail_saved (cfg : Config) (env : ℕ → TickEvent) (s : TrackState) (p : ℚ)
    (h : env s.ticks = TickEvent.writeFail p) (hs : cfg.save_csv = true) :
    stepTick cfg env s = writeFailTick cfg s p := by
  unfold stepTick
  rw [h]
  simp [hs]

theorem stepTick_writeFail_unsaved (cfg : Config) (env : ℕ → TickEvent) (s : TrackState) (p : ℚ)
    (h : env s.ticks = TickEvent.writeFail p) (hs : cfg.save_csv = false) :
    stepTick cfg env s = okTick cfg s p := by
  unfold stepTick
  rw [h]
  simp [hs]

/-- Every branch of the tick body ends with `time.sleep(refresh_sec)`
(line 87): the clock always advances by exactly `refresh_sec`. -/
theorem stepTick_now (cfg : Config) (env : ℕ → TickEvent) (s : TrackState) :
    (stepTick cfg env s).now = s.now + cfg.refresh_sec := by
  unfold stepTick
  cases env s.ticks with
  | fetchFail => rfl
  | ok p => rfl
  | writeFail p => by_cases h : cfg.save_csv <;> simp [h, okTick, writeFailTick]

/-- Every branch of the tick body counts as one attempted tick. -/
theorem stepTick_ticks (cfg : Config) (env : ℕ → TickEvent) (s : TrackState) :
    (stepTick cfg env s).ticks = s.ticks + 1 := by
  unfold stepTick
  cases env s.ticks with
  | fetchFail => rfl
  | ok p => rfl
  | writeFail p => by_cases h : cfg.save_csv <;> simp [h, okTick, writeFailTick]

/-! ### The loop: guard arithmetic and stabilization -/

theorem runTicks_zero (cfg : Config) (env : ℕ → TickEvent) :
    runTicks cfg env 0 = initState cfg := rfl

/-- The clock equals the number of executed ticks times the refresh
interval (the fetch is modelled as instantaneous). -/
theorem runTicks_now (cfg : Config) (env : ℕ → TickEvent) (n : ℕ) :
    (runTicks cfg env n).now = ((runTicks cfg env n).ticks : ℚ) * cfg.refresh_sec := by
  induction n with
  | zero => simp [runTicks, initState]
  | succ n ih =>
    by_cases h : (runTicks cfg env n).now < deadline cfg
    · simp only [runTicks]
      rw [if_pos h, stepTick_now, stepTick_ticks, ih]
      push_cast
      ring
    · simp only [runTicks]
      rw [if_neg h]
      exact ih

/-- The guard at clock `k * refresh` passes iff `k < ticksBound`. -/
theorem tick_lt_iff (cfg : Config) (hr : 0 < cfg.refresh_sec) (k : ℕ) :
    ((k : ℚ) * cfg.refresh_sec < deadline cfg) ↔ k < ticksBound cfg := by
  rw [← lt_div_iff₀ hr, ticksBound, Int.lt_toNat]
  constructor
  · intro h
    exact Int.lt_ceil.2 (by exact_mod_cast h)
  · intro h
    exact_mod_cast Int.lt_ceil.1 h

/-- Exactly `min n (ticksBound cfg)` of the first `n` guard evaluations
pass. -/
theorem runTicks_ticks (cfg : Config) (env : ℕ → TickEvent) (hr : 0 < cfg.refresh_sec) (n : ℕ) :
    (runTicks cfg env n).ticks = min n (ticksBound cfg) := by
  induction n with
  | zero => simp [runTicks, initState]
  | succ n ih =>
    have hnow := runTicks_now cfg env n
    by_cases h : (runTicks cfg env n).now < deadline cfg
    · have hlt : min n (ticksBound cfg) < ticksBound cfg := by
        have h' := h
        rw [hnow, ih] at h'
        exact (tick_lt_iff cfg hr _).1 h'
      simp only [runTicks]
      rw [if_pos h, stepTick_ticks, ih]
      omega
    · have hge : ticksBound cfg ≤ min n (ticksBound cfg) := by
        have h' := h
        rw [hnow, ih] at h'
        by_contra hc
        push_neg at hc
        exact h' ((tick_lt_iff cfg hr _).2 hc)
      simp only [runTicks]
      rw [if_neg h, ih]
      omega

/-- Guard `n + 1` when ticks are still available: one more tick runs. -/
theorem runTicks_succ_lt (cfg : Config) (env : ℕ → TickEvent) (hr : 0 < cfg.refresh_sec)
    {n : ℕ} (h : n < ticksBound cfg) :
    runTicks cfg env (n + 1) = stepTick cfg env (runTicks cfg env n) := by
  have hg : (runTicks cfg env n).now < deadline cfg := by
    rw [runTicks_now, runTicks_ticks cfg env hr]
    have hm : min n (ticksBound cfg) = n := by omega
    rw [hm]
    exact (tick_lt_iff cfg hr n).2 h
  rw [runTicks, if_pos hg]

/-- Guard `n + 1` when the deadline has been reached: the loop is over. -/
theorem runTicks_succ_ge (cfg : Config) (env : ℕ → TickEvent) (hr : 0 < cfg.refresh_sec)
    {n : ℕ} (h : ticksBound cfg ≤ n) :
    runTicks cfg env (n + 1) = runTicks cfg env n := by
  have hg : ¬ (runTicks cfg env n).now < deadline cfg := by
    rw [runTicks_now, runTicks_ticks cfg env hr]
    have hm : min n (ticksBound cfg) = ticksBound cfg := by omega
    rw [hm]
    intro hcon
    exact absurd ((tick_lt_iff cfg hr _).1 hcon) (lt_irrefl _)
  rw [runTicks, if_neg hg]

/-- The loop state is stable once `ticksBound` guard evaluations have
happened: `track` (which uses the budget `ticksBound + 1`) is the true
final state of the `while` loop. -/
theorem track_loop_limit (cfg : Config) (env : ℕ → TickEvent) (hr : 0 < cfg.refresh_sec)
    (m : ℕ) (hm : ticksBound cfg ≤ m) :
    runTicks cfg env m = track cfg env := by
  have key : ∀ j, ticksBound cfg ≤ j → runTicks cfg env j = runTicks cfg env (ticksBound cfg) := by
    intro j
    induction j with
    | zero =>
      intro hj
      have h0 : ticksBound cfg = 0 := by omega
      rw [h0]
    | succ j ih =>
      intro hj
      rcases Nat.lt_or_ge j (ticksBound cfg) with h' | h'
      · have heq : ticksBound cfg = j + 1 := by omega
        rw [heq]
      · rw [runTicks_succ_ge cfg env hr h']
        exact ih h'
  rw [track, fuel, key m hm, key (ticksBound cfg + 1) (by omega)]

/-- Master invariant rule for the loop. -/
theorem runTicks_inv (cfg : Config) (env : ℕ → TickEvent) (P : TrackState → Prop)
    (h0 : P (initState cfg)) (hstep : ∀ s, P s → P (stepTick cfg env s)) (n : ℕ) :
    P (runTicks cfg env n) := by
  induction n with
  | zero => exact h0
  | succ n ih =>
    by_cases h : (runTicks cfg env n).now < deadline cfg
    · rw [runTicks, if_pos h]
      exact hstep _ ih
    · rw [runTicks, if_neg h]
      exact ih

/-- Neither the guard count nor the clock depends on the tick outcomes:
no caught exception ends the loop early. -/
theorem runTicks_env_indep (cfg : Config) (env env' : ℕ → TickEvent) (n : ℕ) :
    (runTicks cfg env n).now = (runTicks cfg env' n).now ∧
      (runTicks cfg env n).ticks = (runTicks cfg env' n).ticks := by
  induction n with
  | zero => exact ⟨rfl, rfl⟩
  | succ n ih =>
    by_cases h : (runTicks cfg env n).now < deadline cfg
    · have h' : (runTicks cfg env' n).now < deadline cfg := ih.1 ▸ h
      constructor
      · rw [runTicks, if_pos h, runTicks, if_pos h', stepTick_now, stepTick_now, ih.1]
      · rw [runTicks, if_pos h, runTicks, if_pos h', stepTick_ticks, stepTick_ticks, ih.2]
    · have h' : ¬ (runTicks cfg env' n).now < deadline cfg := ih.1 ▸ h
      rw [runTicks, if_neg h, runTicks, if_neg h']
      exact ih

/-! ### Observers of the three tick branches -/

theorem fileData_csvAppend (f : Option (List CsvRow)) (t p : ℚ) :
    fileData (csvAppend f t p) = fileData f ++ [(t, p)] := by
  cases f with
  | none => rfl
  | some rows => simp [csvAppend, fileData, List.filterMap_append, rowData]

theorem memData_okTick (cfg : Config) (s : TrackState) (p : ℚ) :
    memData (okTick cfg s p) = memData s ++ [(s.now, p)] := by
  simp [okTick, memData]

theorem diskData_okTick_saved (cfg : Config) (s : TrackState) (p : ℚ)
    (hs : cfg.save_csv = true) :
    diskData (okTick cfg s p) = diskData s ++ [(s.now, p)] := by
  simp [okTick, diskData, hs, fileData_csvAppend]

theorem diskData_okTick_unsaved (cfg : Config) (s : TrackState) (p : ℚ)
    (hs : cfg.save_csv = false) :
    diskData (okTick cfg s p) = diskData s := by
  simp [okTick, diskData, hs]

theorem diskData_failTick (cfg : Config) (s : TrackState) :
    diskData (failTick cfg s) = diskData s := rfl

theorem diskData_writeFailTick (cfg : Config) (s : TrackState) (p : ℚ) :
    diskData (writeFailTick cfg s p) = diskData s := rfl

theorem memData_failTick (cfg : Config) (s : TrackState) :
    memData (failTick cfg s) = memData s := rfl

theorem memData_writeFailTick (cfg : Config) (s : TrackState) (p : ℚ) :
    memData (writeFailTick cfg s p) = memData s ++ [(s.now, p)] := by
  simp [writeFailTick, memData]

/-! ### Extrema of a nonempty list of prices -/

theorem foldl_min_le_init (xs : List ℚ) : ∀ x : ℚ, xs.foldl min x ≤ x := by
  induction xs with
  | nil => intro x; exact le_refl x
  | cons y ys ih => intro x; exact le_trans (ih (min x y)) (min_le_left x y)

theorem init_le_foldl_max (xs : List ℚ) : ∀ x : ℚ, x ≤ xs.foldl max x := by
  induction xs with
  | nil => intro x; exact le_refl x
  | cons y ys ih => intro x; exact le_trans (le_max_left x y) (ih (max x y))

theorem vminOf_le_vmaxOf (l : List ℚ) (hl : l ≠ []) : vminOf l ≤ vmaxOf l := by
  cases l with
  | nil => exact absurd rfl hl
  | cons x xs => exact le_trans (foldl_min_le_init xs x) (init_le_foldl_max xs x)

theorem plotMargin_pos (v : ℚ) : 0 < plotMargin v :=
  lt_of_lt_of_le (by norm_num) (le_max_right _ _)

/-! ### Counting tick outcomes -/

theorem okCount_succ (env : ℕ → TickEvent) (n : ℕ) :
    okCount env (n + 1) =
      okCount env n + (if isOkEvent (env n) then 1 else 0) := by
  by_cases h : isOkEvent (env n) <;>
    simp [okCount, List.range_succ, List.filter_append, h]

theorem okCount_le (env : ℕ → TickEvent) (n : ℕ) : okCount env n ≤ n := by
  calc okCount env n ≤ (List.range n).length := List.length_filter_le _ _
  _ = n := List.length_range n

/-! ### Evaluation of the concrete sessions -/

theorem hr1 : (0 : ℚ) < cfg1.refresh_sec := by norm_num [cfg1]

theorem tb1 : ticksBound cfg1 = 1 := by
  have h : deadline cfg1 / cfg1.refresh_sec = 1 := by norm_num [deadline, cfg1]
  rw [ticksBound, h, Int.ceil_one]
  rfl

/-- The 1-tick session under `env1`: the single tick appends `(0, 5)` to
memory, the CSV append raises and is caught. -/
theorem eval1 : track cfg1 env1 = writeFailTick cfg1 (initState cfg1) 5 := by
  rw [← track_loop_limit cfg1 env1 hr1 1 (le_of_eq tb1)]
  rw [show (1 : ℕ) = 0 + 1 from rfl, runTicks_succ_lt cfg1 env1 hr1 (by rw [tb1]; omega)]
  rw [runTicks_zero]
  exact stepTick_writeFail_saved cfg1 env1 (initState cfg1) 5 rfl rfl

theorem hr2 : (0 : ℚ) < cfg2.refresh_sec := by norm_num [cfg2]

theorem tb2 : ticksBound cfg2 = 2 := by
  have h : deadline cfg2 / cfg2.refresh_sec = 2 := by norm_num [deadline, cfg2]
  rw [ticksBound, h]
  norm_num
  rfl

/-- The 2-tick session under `env2`: tick 0's CSV append raises (caught),
tick 1 completes and writes its row. -/
theorem eval2 : track cfg2 env2 = okTick cfg2 (writeFailTick cfg2 (initState cfg2) 7) 8 := by
  rw [← track_loop_limit cfg2 env2 hr2 2 (le_of_eq tb2)]
  rw [show (2 : ℕ) = 1 + 1 from rfl, runTicks_succ_lt cfg2 env2 hr2 (by rw [tb2]; omega)]
  rw [show (1 : ℕ) = 0 + 1 from rfl, runTicks_succ_lt cfg2 env2 hr2 (by rw [tb2]; omega)]
  rw [runTicks_zero]
  rw [stepTick_writeFail_saved cfg2 env2 (initState cfg2) 7 rfl rfl]
  exact stepTick_ok cfg2 env2 (writeFailTick cfg2 (initState cfg2) 7) 8 rfl

/-- The 2-tick session under `env6`: tick 0 completes (chart drawn for
series `[10]`), tick 1's CSV append raises, so its sample reaches memory
but the chart is not redrawn. -/
theorem eval6 : track cfg2 env6 = writeFailTick cfg2 (okTick cfg2 (initState cfg2) 10) 20 := by
  rw [← track_loop_limit cfg2 env6 hr2 2 (le_of_eq tb2)]
  rw [show (2 : ℕ) = 1 + 1 from rfl, runTicks_succ_lt cfg2 env6 hr2 (by rw [tb2]; omega)]
  rw [show (1 : ℕ) = 0 + 1 from rfl, runTicks_succ_lt cfg2 env6 hr2 (by rw [tb2]; omega)]
  rw [runTicks_zero]
  rw [stepTick_ok cfg2 env6 (initState cfg2) 10 rfl]
  exact stepTick_writeFail_saved cfg2 env6 (okTick cfg2 (initState cfg2) 10) 20 rfl rfl

theorem diskData_initState (cfg : Config) : diskData (initState cfg) = [] := by
  rw [diskData, initState]
  by_cases h : cfg.save_csv
  · rw [if_pos h]
    rfl
  · rw [if_neg h]
    rfl

/-- All ticks succeed: evaluation of the 2-tick session under `envOk10`. -/
theorem evalOk2 : track cfg2 envOk10 = okTick cfg2 (okTick cfg2 (initState cfg2) 10) 10 := by
  rw [← track_loop_limit cfg2 envOk10 hr2 2 (le_of_eq tb2)]
  rw [show (2 : ℕ) = 1 + 1 from rfl, runTicks_succ_lt cfg2 envOk10 hr2 (by rw [tb2]; omega)]
  rw [show (1 : ℕ) = 0 + 1 from rfl, runTicks_succ_lt cfg2 envOk10 hr2 (by rw [tb2]; omega)]
  rw [runTicks_zero]
  rw [stepTick_ok cfg2 envOk10 (initState cfg2) 10 rfl]
  exact stepTick_ok cfg2 envOk10 (okTick cfg2 (initState cfg2) 10) 10 rfl

/-! ### Claim C1 -/

/-- Claim C1 fails as stated: in the 1-tick session `cfg1`/`env1` the
fetch succeeds and the sample `(0, 5)` is appended to the in-memory series
(line 59), but the CSV append raises and is caught by the tick's
`except` handler, so the sample is never written to disk — before the next
tick begins (or ever).  Hence the disk series and the memory series are
not prefix-consistent. -/
theorem c1_cex : ¬ allFlushed (track cfg1 env1) := by
  rw [eval1]
  intro hcon
  have hcon' : ∀ x ∈ memData (writeFailTick cfg1 (initState cfg1) 5),
      x ∈ diskData (writeFailTick cfg1 (initState cfg1) 5) := hcon
  have hm : ((0 : ℚ), (5 : ℚ)) ∈ memData (writeFailTick cfg1 (initState cfg1) 5) := by
    simp [memData, writeFailTick, initState]
  have hd := hcon' _ hm
  rw [diskData_writeFailTick, diskData_initState] at hd
  exact absurd hd (List.not_mem_nil _)

/-- Claim C1 (amended): in every persisting session in which no CSV append
raises, the on-disk data rows coincide with the in-memory series at every
tick boundary, so every sample appended to memory has been written to disk
before the next poll tick begins. -/
theorem c1_flush_no_writefail (cfg : Config) (env : ℕ → TickEvent)
    (hs : cfg.save_csv = true) (henv : ∀ k p, env k ≠ TickEvent.writeFail p) (n : ℕ) :
    diskData (runTicks cfg env n) = memData (runTicks cfg env n) := by
  refine runTicks_inv cfg env (fun s => diskData s = memData s) ?_ ?_ n
  · show diskData (initState cfg) = memData (initState cfg)
    rw [diskData_initState]
    rfl
  · intro s hP
    cases henv' : env s.ticks with
    | fetchFail =>
      rw [stepTick_fetchFail cfg env s henv']
      exact hP
    | ok p =>
      rw [stepTick_ok cfg env s p henv', diskData_okTick_saved cfg s p hs, memData_okTick, hP]
    | writeFail p => exact absurd henv' (henv s.ticks p)

theorem c1_witness : diskData (runTicks cfg2 envOk10 2) = memData (runTicks cfg2 envOk10 2) :=
  c1_flush_no_writefail cfg2 envOk10 rfl (by intro k p; simp [envOk10]) 2

/-! ### Claim C2 -/

/-- Claim C2 fails as stated: in the session `cfg2`/`env2` the CSV append
of tick 0 raises, the failure is caught by the per-tick handler and
reported (`errors = 1`), yet the loop is not terminated — a second tick is
attempted and even writes its row to the CSV. -/
theorem c2_cex :
    (track cfg2 env2).errors = 1 ∧ 1 < (track cfg2 env2).ticks ∧
      (diskData (track cfg2 env2)).length = 1 := by
  rw [eval2]
  refine ⟨?_, ?_, ?_⟩
  · simp [okTick, writeFailTick, initState]
  · simp [okTick, writeFailTick, initState]
  · rw [diskData_okTick_saved cfg2 _ 8 rfl, diskData_writeFailTick, diskData_initState]
    rfl

/-- Claim C2 (amended): a CSV append failure during a tick is caught by
the same `except` handler as a transient fetch failure (the write at
lines 64-66 sits inside the `try` of lines 56-85): it is reported and the
loop continues to the next tick.  The number of attempted ticks does not
depend on any tick outcome, and a caught write failure leaves the file as
it was, keeps the already-appended in-memory sample, and increments only
the error report count.  (Only an I/O failure of the header
initialization, lines 35-38, which is outside any `try`, would be
unhandled — and it happens before the loop starts.) -/
theorem c2_sink_failure_absorbed :
    (∀ (cfg : Config) (env env' : ℕ → TickEvent),
        (track cfg env).ticks = (track cfg env').ticks) ∧
      (∀ (cfg : Config) (env : ℕ → TickEvent) (s : TrackState) (p : ℚ),
        cfg.save_csv = true → env s.ticks = TickEvent.writeFail p →
        (stepTick cfg env s).ticks = s.ticks + 1 ∧
          (stepTick cfg env s).errors = s.errors + 1 ∧
          (stepTick cfg env s).prices = s.prices ++ [Sample.mk s.now p] ∧
          (stepTick cfg env s).file = s.file) := by
  constructor
  · intro cfg env env'
    rw [track, track]
    exact (runTicks_env_indep cfg env env' (fuel cfg)).2
  · intro cfg env s p hs henv
    rw [stepTick_writeFail_saved cfg env s p henv hs]
    exact ⟨rfl, rfl, rfl, rfl⟩

theorem c2_witness :
    (track cfg2 env2).ticks = (track cfg2 envOk10).ticks ∧
      ((stepTick cfg2 env2 (initState cfg2)).ticks = (initState cfg2).ticks + 1 ∧
        (stepTick cfg2 env2 (initState cfg2)).errors = (initState cfg2).errors + 1 ∧
        (stepTick cfg2 env2 (initState cfg2)).prices =
          (initState cfg2).prices ++ [Sample.mk (initState cfg2).now 7] ∧
        (stepTick cfg2 env2 (initState cfg2)).file = (initState cfg2).file) :=
  ⟨c2_sink_failure_absorbed.1 cfg2 env2 envOk10,
   c2_sink_failure_absorbed.2 cfg2 env2 (initState cfg2) 7 rfl rfl⟩

/-! ### Claim C3 -/

/-- Claim C3 fails as stated: in the 1-tick session `cfg1`/`env1` the
price fetch of the only tick succeeds, yet the CSV gains no data row,
because the append itself raises and is caught.  So the persisted CSV does
not contain one data row per successful fetch. -/
theorem c3_cex :
    succFetchCount env1 (track cfg1 env1).ticks = 1 ∧
      ¬ ((diskData (track cfg1 env1)).length =
          succFetchCount env1 (track cfg1 env1).ticks) := by
  have ht : (track cfg1 env1).ticks = 1 := by
    rw [eval1]
    rfl
  have hsf : succFetchCount env1 1 = 1 := by decide
  have hdl : (diskData (track cfg1 env1)).length = 0 := by
    rw [eval1, diskData_writeFailTick, diskData_initState]
    rfl
  rw [ht, hsf, hdl]
  exact ⟨rfl, by omega⟩

/-- Claim C3 (amended): a tick whose fetch fails is reported, skipped
(neither the memory series nor the file changes), and the loop continues;
the persisted CSV always consists of exactly one header row followed
exclusively by data rows, one per tick whose fetch succeeded *and* whose
CSV append completed; its data-row count is at most the attempted tick
count. -/
theorem c3_fetch_failure_skips :
    (∀ (cfg : Config) (env : ℕ → TickEvent) (s : TrackState),
        env s.ticks = TickEvent.fetchFail →
        (stepTick cfg env s).prices = s.prices ∧ (stepTick cfg env s).file = s.file ∧
          (stepTick cfg env s).errors = s.errors + 1 ∧
          (stepTick cfg env s).ticks = s.ticks + 1) ∧
      (∀ (cfg : Config) (env : ℕ → TickEvent), cfg.save_csv = true → ∀ n : ℕ,
        (runTicks cfg env n).file =
            some (CsvRow.header ::
              (diskData (runTicks cfg env n)).map fun q => CsvRow.data q.1 q.2) ∧
          (diskData (runTicks cfg env n)).length = okCount env (runTicks cfg env n).ticks ∧
          (diskData (runTicks cfg env n)).length ≤ (runTicks cfg env n).ticks) := by
  constructor
  · intro cfg env s henv
    rw [stepTick_fetchFail cfg env s henv]
    exact ⟨rfl, rfl, rfl, rfl⟩
  · intro cfg env hs n
    have key : (runTicks cfg env n).file =
        some (CsvRow.header ::
          (diskData (runTicks cfg env n)).map fun q => CsvRow.data q.1 q.2) ∧
        (diskData (runTicks cfg env n)).length = okCount env (runTicks cfg env n).ticks := by
      refine runTicks_inv cfg env (fun s => s.file =
        some (CsvRow.header :: (diskData s).map fun q => CsvRow.data q.1 q.2) ∧
        (diskData s).length = okCount env s.ticks) ?_ ?_ n
      · show (initState cfg).file =
            some (CsvRow.header ::
              (diskData (initState cfg)).map fun q => CsvRow.data q.1 q.2) ∧
            (diskData (initState cfg)).length = okCount env (initState cfg).ticks
        rw [diskData_initState]
        simp [initState, hs, okCount]
      · rintro s ⟨hfile, hlen⟩
        cases henv' : env s.ticks with
        | fetchFail =>
          rw [stepTick_fetchFail cfg env s henv']
          refine ⟨hfile, ?_⟩
          show (diskData s).length = okCount env (s.ticks + 1)
          rw [okCount_succ, henv', hlen]
          simp [isOkEvent]
        | ok p =>
          rw [stepTick_ok cfg env s p henv']
          constructor
          · show (if cfg.save_csv = true then csvAppend s.file s.now p else s.file) = _
            rw [if_pos hs, hfile, diskData_okTick_saved cfg s p hs]
            simp [csvAppend]
          · rw [diskData_okTick_saved cfg s p hs]
            show _ = okCount env (s.ticks + 1)
            rw [okCount_succ, henv']
            simp [isOkEvent, hlen]
        | writeFail p =>
          rw [stepTick_writeFail_saved cfg env s p henv' hs]
          refine ⟨hfile, ?_⟩
          show (diskData s).length = okCount env (s.ticks + 1)
          rw [okCount_succ, henv', hlen]
          simp [isOkEvent]
    refine ⟨key.1, key.2, ?_⟩
    rw [key.2]
    exact okCount_le env _

theorem c3_witness :
    ((stepTick cfg2 envFail (initState cfg2)).prices = (initState cfg2).prices ∧
        (stepTick cfg2 envFail (initState cfg2)).file = (initState cfg2).file ∧
        (stepTick cfg2 envFail (initState cfg2)).errors = (initState cfg2).errors + 1 ∧
        (stepTick cfg2 envFail (initState cfg2)).ticks = (initState cfg2).ticks + 1) ∧
      ((runTicks cfg2 envOk10 2).file =
          some (CsvRow.header ::
            (diskData (runTicks cfg2 envOk10 2)).map fun q => CsvRow.data q.1 q.2) ∧
        (diskData (runTicks cfg2 envOk10 2)).length =
          okCount envOk10 (runTicks cfg2 envOk10 2).ticks ∧
        (diskData (runTicks cfg2 envOk10 2)).length ≤ (runTicks cfg2 envOk10 2).ticks) :=
  ⟨c3_fetch_failure_skips.1 cfg2 envFail (initState cfg2) rfl,
   c3_fetch_failure_skips.2 cfg2 envOk10 rfl 2⟩

/-! ### Claim C4 -/

/-- Claim C4: for positive duration and refresh interval, the number of
attempted ticks equals `⌈duration / refresh⌉` (the duration in seconds is
`60 * duration_min`), and in particular lies within one tick of that
ceiling: the loop guard stops the session at the first check with
`now ≥ deadline` and never mid-tick. -/
theorem c4_tick_count (cfg : Config) (env : ℕ → TickEvent)
    (hd : 0 < cfg.duration_min) (hr : 0 < cfg.refresh_sec) :
    ((track cfg env).ticks : ℤ) = ⌈deadline cfg / cfg.refresh_sec⌉ ∧
      (((track cfg env).ticks : ℤ) - ⌈deadline cfg / cfg.refresh_sec⌉).natAbs ≤ 1 := by
  have hticks : (track cfg env).ticks = ticksBound cfg := by
    rw [track, fuel, runTicks_ticks cfg env hr]
    omega
  have hdl : 0 < deadline cfg := by
    rw [deadline]
    exact mul_pos (by norm_num) hd
  have hnn : 0 ≤ ⌈deadline cfg / cfg.refresh_sec⌉ :=
    Int.ceil_nonneg (div_nonneg hdl.le hr.le)
  have heq : ((track cfg env).ticks : ℤ) = ⌈deadline cfg / cfg.refresh_sec⌉ := by
    rw [hticks, ticksBound, Int.toNat_of_nonneg hnn]
  refine ⟨heq, ?_⟩
  rw [heq]
  simp

theorem c4_witness :
    ((track cfg2 envOk10).ticks : ℤ) = ⌈deadline cfg2 / cfg2.refresh_sec⌉ ∧
      (((track cfg2 envOk10).ticks : ℤ) - ⌈deadline cfg2 / cfg2.refresh_sec⌉).natAbs ≤ 1 :=
  c4_tick_count cfg2 envOk10 (by simp [cfg2]) (by simp [cfg2])

/-! ### Claim C5 -/

/-- Claim C5: with `duration = 0` the deadline equals the start instant,
the first guard evaluation already fails, so the loop performs zero ticks,
the session state is exactly the post-initialization state (it terminates
immediately), and when persisting the file holds only the header row. -/
theorem c5_zero_duration (cfg : Config) (env : ℕ → TickEvent) (hd : cfg.duration_min = 0) :
    track cfg env = initState cfg ∧ (track cfg env).ticks = 0 ∧
      (track cfg env).prices = [] ∧
      (cfg.save_csv = true → (track cfg env).file = some [CsvRow.header]) := by
  have hstop : ∀ n, runTicks cfg env n = initState cfg := by
    intro n
    induction n with
    | zero => rfl
    | succ n ih =>
      have hg : ¬ (runTicks cfg env n).now < deadline cfg := by
        rw [ih, deadline, hd]
        simp [initState]
      rw [runTicks, if_neg hg]
      exact ih
  have ht : track cfg env = initState cfg := hstop (fuel cfg)
  refine ⟨ht, ?_, ?_, ?_⟩
  · rw [ht]
    rfl
  · rw [ht]
    rfl
  · intro h
    rw [ht]
    simp [initState, h]

theorem c5_witness :
    track cfg0 envOk10 = initState cfg0 ∧ (track cfg0 envOk10).ticks = 0 ∧
      (track cfg0 envOk10).prices = [] ∧
      (cfg0.save_csv = true → (track cfg0 envOk10).file = some [CsvRow.header]) :=
  c5_zero_duration cfg0 envOk10 rfl

/-! ### Claim C6 -/

/-- Claim C6 fails as stated: in the session `cfg2`/`env6` (plotting and
persisting), tick 1's sample `20` is recorded in memory (line 59 runs
before the CSV append), but the CSV append raises and the caught exception
skips the whole chart update (lines 69-82).  After that recorded sample
the y-range still reflects the one-point series `[10]` of tick 0
(`[10 - 1/20, 10 + 1/20]`), not `[min - margin, max + margin]` of the
current series `[10, 20]` (`[10 - 1/10, 20 + 1/10]`). -/
theorem c6_cex :
    cfg2.show_plot = true ∧ (track cfg2 env6).prices.length = 2 ∧
      ¬ ylimMatchesSeries (track cfg2 env6) := by
  have hylim : (track cfg2 env6).ylim = some (10 - plotMargin 10, 10 + plotMargin 10) := by
    rw [eval6]
    show (okTick cfg2 (initState cfg2) 10).ylim = _
    simp [okTick, cfg2, initState, vminOf, vmaxOf]
  have hprices : (track cfg2 env6).prices.map Sample.price = [10, 20] := by
    rw [eval6]
    simp [writeFailTick, okTick, initState]
  have hlen : (track cfg2 env6).prices.length = 2 := by
    rw [eval6]
    simp [writeFailTick, okTick, initState]
  have e3 : vminOf [(10 : ℚ), 20] = 10 := by
    rw [vminOf, List.foldl_cons, List.foldl_nil]
    exact min_eq_left (by norm_num)
  have e4 : vmaxOf [(10 : ℚ), 20] = 20 := by
    rw [vmaxOf, List.foldl_cons, List.foldl_nil]
    exact max_eq_right (by norm_num)
  have e5 : plotMargin 10 = 1 / 20 := by
    rw [plotMargin, max_eq_left (by norm_num)]
    norm_num
  have e6 : plotMargin 20 = 1 / 10 := by
    rw [plotMargin, max_eq_left (by norm_num)]
    norm_num
  refine ⟨rfl, hlen, ?_⟩
  intro hcon
  rw [ylimMatchesSeries, hprices, hylim, e3, e4, e5, e6] at hcon
  simp only [Option.some.injEq, Prod.mk.injEq] at hcon
  exact absurd hcon.2 (by norm_num)

/-- Claim C6 (amended): when visualization is enabled, after every sample
recorded on a tick that completes without an exception (in particular,
whose CSV append succeeded), the chart's y-range is set to
`[min(values) - margin, max(values) + margin]` over the full current
series, with `margin = max(0.5% of the maximum value, 0.01)`; since the
margin is at least `0.01`, even a single-point or flat series gets a
strictly positive vertical range.  (On a tick whose CSV append raises, the
sample is recorded in memory but the chart is not redrawn.) -/
theorem c6_ylim_on_complete_tick (cfg : Config) (env : ℕ → TickEvent) (s : TrackState) (p : ℚ)
    (hp : cfg.show_plot = true) (henv : env s.ticks = TickEvent.ok p) :
    (stepTick cfg env s).ylim =
        some (vminOf ((s.prices ++ [Sample.mk s.now p]).map Sample.price) -
                plotMargin (vmaxOf ((s.prices ++ [Sample.mk s.now p]).map Sample.price)),
              vmaxOf ((s.prices ++ [Sample.mk s.now p]).map Sample.price) +
                plotMargin (vmaxOf ((s.prices ++ [Sample.mk s.now p]).map Sample.price))) ∧
      vminOf ((s.prices ++ [Sample.mk s.now p]).map Sample.price) -
          plotMargin (vmaxOf ((s.prices ++ [Sample.mk s.now p]).map Sample.price)) <
        vmaxOf ((s.prices ++ [Sample.mk s.now p]).map Sample.price) +
          plotMargin (vmaxOf ((s.prices ++ [Sample.mk s.now p]).map Sample.price)) := by
  constructor
  · rw [stepTick_ok cfg env s p henv]
    simp [okTick, hp]
  · have hne : (s.prices ++ [Sample.mk s.now p]).map Sample.price ≠ [] := by simp
    have h1 := vminOf_le_vmaxOf _ hne
    have h2 := plotMargin_pos (vmaxOf ((s.prices ++ [Sample.mk s.now p]).map Sample.price))
    linarith

theorem c6_witness :
    (stepTick cfg2 envOk10 (initState cfg2)).ylim =
        some (vminOf (((initState cfg2).prices ++
                  [Sample.mk (initState cfg2).now 10]).map Sample.price) -
                plotMargin (vmaxOf (((initState cfg2).prices ++
                  [Sample.mk (initState cfg2).now 10]).map Sample.price)),
              vmaxOf (((initState cfg2).prices ++
                  [Sample.mk (initState cfg2).now 10]).map Sample.price) +
                plotMargin (vmaxOf (((initState cfg2).prices ++
                  [Sample.mk (initState cfg2).now 10]).map Sample.price))) ∧
      vminOf (((initState cfg2).prices ++
          [Sample.mk (initState cfg2).now 10]).map Sample.price) -
        plotMargin (vmaxOf (((initState cfg2).prices ++
          [Sample.mk (initState cfg2).now 10]).map Sample.price)) <
      vmaxOf (((initState cfg2).prices ++
          [Sample.mk (initState cfg2).now 10]).map Sample.price) +
        plotMargin (vmaxOf (((initState cfg2).prices ++
          [Sample.mk (initState cfg2).now 10]).map Sample.price)) :=
  c6_ylim_on_complete_tick cfg2 envOk10 (initState cfg2) 10 rfl rfl

/-! ### Claim C7 -/

theorem diskTimestamps_okTick_saved (cfg : Config) (s : TrackState) (p : ℚ)
    (hs : cfg.save_csv = true) :
    diskTimestamps (okTick cfg s p) = diskTimestamps s ++ [s.now] := by
  rw [diskTimestamps, diskData_okTick_saved cfg s p hs]
  simp [diskTimestamps]

/-- Claim C7: given a positive refresh interval, the timestamps of the
persisted data rows are strictly increasing in file order (in particular
each consecutive pair is strictly increasing): each row is written with
the current clock value, and the clock strictly advances every tick. -/
theorem c7_monotone_timestamps (cfg : Config) (env : ℕ → TickEvent)
    (hr : 0 < cfg.refresh_sec) :
    List.Pairwise (· < ·) (diskTimestamps (track cfg env)) := by
  have key : ∀ n, List.Pairwise (· < ·) (diskTimestamps (runTicks cfg env n)) ∧
      ∀ t ∈ diskTimestamps (runTicks cfg env n), t < (runTicks cfg env n).now := by
    intro n
    refine runTicks_inv cfg env
      (fun s => List.Pairwise (· < ·) (diskTimestamps s) ∧
        ∀ t ∈ diskTimestamps s, t < s.now) ?_ ?_ n
    · show List.Pairwise (· < ·) (diskTimestamps (initState cfg)) ∧
        ∀ t ∈ diskTimestamps (initState cfg), t < (initState cfg).now
      rw [diskTimestamps, diskData_initState]
      simp
    · rintro s ⟨hpw, hbd⟩
      cases henv : env s.ticks with
      | fetchFail =>
        rw [stepTick_fetchFail cfg env s henv]
        refine ⟨hpw, ?_⟩
        intro t ht
        show t < s.now + cfg.refresh_sec
        have := hbd t ht
        linarith
      | ok p =>
        rw [stepTick_ok cfg env s p henv]
        by_cases hs : cfg.save_csv
        · rw [diskTimestamps_okTick_saved cfg s p hs]
          constructor
          · rw [List.pairwise_append]
            refine ⟨hpw, List.pairwise_singleton _ _, ?_⟩
            intro a ha b hb
            rw [List.mem_singleton] at hb
            rw [hb]
            exact hbd a ha
          · intro t ht
            show t < s.now + cfg.refresh_sec
            rw [List.mem_append, List.mem_singleton] at ht
            rcases ht with ht | ht
            · have := hbd t ht
              linarith
            · rw [ht]
              linarith
        · have hdt : diskTimestamps (okTick cfg s p) = diskTimestamps s := by
            rw [diskTimestamps, diskData_okTick_unsaved cfg s p (by simpa using hs)]
            rfl
          rw [hdt]
          refine ⟨hpw, ?_⟩
          intro t ht
          show t < s.now + cfg.refresh_sec
          have := hbd t ht
          linarith
      | writeFail p =>
        by_cases hs : cfg.save_csv
        · rw [stepTick_writeFail_saved cfg env s p henv hs]
          refine ⟨hpw, ?_⟩
          intro t ht
          show t < s.now + cfg.refresh_sec
          have := hbd t ht
          linarith
        · rw [stepTick_writeFail_unsaved cfg env s p henv (by simpa using hs)]
          have hdt : diskTimestamps (okTick cfg s p) = diskTimestamps s := by
            rw [diskTimestamps, diskData_okTick_unsaved cfg s p (by simpa using hs)]
            rfl
          rw [hdt]
          refine ⟨hpw, ?_⟩
          intro t ht
          show t < s.now + cfg.refresh_sec
          have := hbd t ht
          linarith
  rw [track]
  exact (key (fuel cfg)).1

theorem c7_witness : List.Pairwise (· < ·) (diskTimestamps (track cfg2 envOk10)) :=
  c7_monotone_timestamps cfg2 envOk10 (by simp [cfg2])

/-! ### Claim C8 -/

/-- Claim C8: with `persist = false` no file is ever created or modified:
the header initialization (lines 35-38) and the per-sample appends
(lines 63-66) are both guarded by `save_csv`, so at every point of the
session — not just at the end — the file does not exist. -/
theorem c8_no_persist_no_file (cfg : Config) (env : ℕ → TickEvent)
    (hs : cfg.save_csv = false) :
    (track cfg env).file = none ∧ ∀ n : ℕ, (runTicks cfg env n).file = none := by
  have key : ∀ n, (runTicks cfg env n).file = none := by
    intro n
    refine runTicks_inv cfg env (fun s => s.file = none) ?_ ?_ n
    · show (initState cfg).file = none
      simp [initState, hs]
    · intro s hP
      cases henv : env s.ticks with
      | fetchFail =>
        rw [stepTick_fetchFail cfg env s henv]
        exact hP
      | ok p =>
        rw [stepTick_ok cfg env s p henv]
        simp [okTick, hs, hP]
      | writeFail p =>
        rw [stepTick_writeFail_unsaved cfg env s p henv hs]
        simp [okTick, hs, hP]
  exact ⟨key (fuel cfg), key⟩

theorem c8_witness : (track cfgNoSave envOk10).file = none :=
  (c8_no_persist_no_file cfgNoSave envOk10 rfl).1

/-! ### Claim C9 -/

/-- Claim C9: `argparse` with `type=bool` applies Python's built-in `bool`
to the flag's textual value, and `bool` of a string is false exactly on
the empty string.  Hence every non-empty value — including the documented
`--save_csv False` / `--show_plot False` (line 163) — parses as `True`,
only the empty string parses as `False`, and the absent flag defaults to
`True`: CSV saving and plotting cannot be disabled by the documented CLI
values. -/
theorem c9_bool_cli_flags :
    (∀ s : String, parseBoolFlag (some s) = true ↔ s ≠ "") ∧
      parseBoolFlag (some "False") = true ∧ parseBoolFlag (some "") = false ∧
      parseBoolFlag none = true := by
  refine ⟨?_, ?_, rfl, rfl⟩
  · intro s
    simp [parseBoolFlag, pyBool]
  · rfl

/-! ### Claim C10 -/

/-- Claim C10: in a session with both persistence and visualization
enabled, every chart redraw for the sample of tick `k` is immediately
preceded in the effect trace by the completed CSV write of that same
sample, and it occurs nowhere else in the trace: the write-before-display
order within a successful tick is deterministic, because the tick body
runs the CSV append (lines 63-66) strictly before the chart update
(lines 69-82) in a single thread. -/
theorem c10_write_before_draw (cfg : Config) (env : ℕ → TickEvent)
    (hs : cfg.save_csv = true) (hp : cfg.show_plot = true) (k : ℕ)
    (hmem : TraceEvent.plotDraw k ∈ (track cfg env).trace) :
    ∃ l₁ l₂, (track cfg env).trace =
        l₁ ++ TraceEvent.csvWrite k :: TraceEvent.plotDraw k :: l₂ ∧
      TraceEvent.plotDraw k ∉ l₁ ∧ TraceEvent.plotDraw k ∉ l₂ := by
  have key : ∀ n, (∀ e ∈ (runTicks cfg env n).trace, eventTick e < (runTicks cfg env n).ticks) ∧
      ∀ j : ℕ, TraceEvent.plotDraw j ∈ (runTicks cfg env n).trace →
        ∃ l₁ l₂, (runTicks cfg env n).trace =
            l₁ ++ TraceEvent.csvWrite j :: TraceEvent.plotDraw j :: l₂ ∧
          TraceEvent.plotDraw j ∉ l₁ ∧ TraceEvent.plotDraw j ∉ l₂ := by
    intro n
    refine runTicks_inv cfg env
      (fun s => (∀ e ∈ s.trace, eventTick e < s.ticks) ∧
        ∀ j : ℕ, TraceEvent.plotDraw j ∈ s.trace →
          ∃ l₁ l₂, s.trace = l₁ ++ TraceEvent.csvWrite j :: TraceEvent.plotDraw j :: l₂ ∧
            TraceEvent.plotDraw j ∉ l₁ ∧ TraceEvent.plotDraw j ∉ l₂) ?_ ?_ n
    · show (∀ e ∈ (initState cfg).trace, eventTick e < (initState cfg).ticks) ∧ _
      constructor
      · intro e he
        exact absurd he (List.not_mem_nil e)
      · intro j hj
        exact absurd hj (List.not_mem_nil _)
    · rintro s ⟨hbd, hsp⟩
      cases henv : env s.ticks with
      | fetchFail =>
        rw [stepTick_fetchFail cfg env s henv]
        refine ⟨?_, hsp⟩
        intro e he
        show eventTick e < s.ticks + 1
        exact lt_trans (hbd e he) (Nat.lt_succ_self _)
      | writeFail p =>
        rw [stepTick_writeFail_saved cfg env s p henv hs]
        refine ⟨?_, hsp⟩
        intro e he
        show eventTick e < s.ticks + 1
        exact lt_trans (hbd e he) (Nat.lt_succ_self _)
      | ok p =>
        rw [stepTick_ok cfg env s p henv]
        have htr : (okTick cfg s p).trace =
            s.trace ++ [TraceEvent.csvWrite s.ticks] ++ [TraceEvent.plotDraw s.ticks] := by
          simp [okTick, hs, hp]
        constructor
        · intro e he
          rw [htr] at he
          show eventTick e < s.ticks + 1
          rw [List.mem_append, List.mem_append, List.mem_singleton, List.mem_singleton] at he
          rcases he with (he | he) | he
          · exact lt_trans (hbd e he) (Nat.lt_succ_self _)
          · rw [he]
            exact Nat.lt_succ_self _
          · rw [he]
            exact Nat.lt_succ_self _
        · intro j hj
          rw [htr] at hj
          rw [List.mem_append, List.mem_append, List.mem_singleton, List.mem_singleton] at hj
          have hfresh : TraceEvent.plotDraw s.ticks ∉ s.trace := by
            intro hin
            exact absurd (hbd _ hin) (by simp [eventTick])
          rcases hj with (hj | hj) | hj
          · obtain ⟨l₁, l₂, hsplit, hn₁, hn₂⟩ := hsp j hj
            have hjlt : j < s.ticks := by
              have := hbd _ hj
              simpa [eventTick] using this
            refine ⟨l₁, l₂ ++ [TraceEvent.csvWrite s.ticks] ++ [TraceEvent.plotDraw s.ticks],
              ?_, hn₁, ?_⟩
            · rw [htr, hsplit]
              simp [List.append_assoc]
            · intro hin
              rw [List.mem_append, List.mem_append, List.mem_singleton,
                List.mem_singleton] at hin
              rcases hin with (hin | hin) | hin
              · exact hn₂ hin
              · exact TraceEvent.noConfusion hin
              · have : j = s.ticks := by
                  injection hin
                omega
          · exact TraceEvent.noConfusion hj
          · have hj' : j = s.ticks := by injection hj
            subst hj'
            refine ⟨s.trace, [], ?_, hfresh, List.not_mem_nil _⟩
            rw [htr]
            simp
  rw [track] at hmem ⊢
  exact (key (fuel cfg)).2 k hmem

theorem c10_witness :
    ∃ l₁ l₂, (track cfg2 envOk10).trace =
        l₁ ++ TraceEvent.csvWrite 0 :: TraceEvent.plotDraw 0 :: l₂ ∧
      TraceEvent.plotDraw 0 ∉ l₁ ∧ TraceEvent.plotDraw 0 ∉ l₂ :=
  c10_write_before_draw cfg2 envOk10 rfl rfl 0
    (by rw [evalOk2]; simp [okTick, initState, cfg2])

end LiveTracker
